import Mathlib

/-!
Verification development for `scripts/export_table_by_partition_keys.py`,
a bulk exporter of Azure Table Storage entities to CSV.

The Python source is shallowly embedded below:

* `load_partition_keys` — parsing of the input key file (lines 59-108),
  over the file's content as a `String`;
* `request_one_pk` — the paginated, retrying fetch loop for one
  partition key (lines 136-200), as a recursion over a scripted list of
  network events, recording each issued request's query parameters and
  each back-off sleep;
* `write_csv` — the CSV writer (lines 203-224), as a pure function from
  the accumulated entity list to the list of written CSV records;
* `require` and `main` (lines 51-56 and 242-293) — the configuration
  checks and the dispatch / summary flow, as `main_model`;
* the `ThreadPoolExecutor` dispatch loop (lines 261-283), as a labelled
  transition system `DStep` on `DispatchState`.
-/

namespace TableExport

/-- An entity returned by the table service: a mapping from field name to
scalar value (modelled as an association list; the script only ever reads
fields back out by name, via `DictWriter`). -/
abbrev Entity := List (String × String)

/-- Splitting a character list at every occurrence of the separator `c`
(the semantics of Python's `str.split(c)` with all parts kept). -/
def splitOnChar (c : Char) : List Char → List (List Char)
  | [] => [[]]
  | x :: xs =>
    match splitOnChar c xs with
    | r :: rs => if x = c then [] :: r :: rs else (x :: r) :: rs
    | [] => [[]]

/-- The characters Python's `str.strip()` removes. -/
def isPySpace (c : Char) : Bool :=
  c = ' ' || c = '\t' || c = '\n' || c = '\r' || c = '\x0b' || c = '\x0c'

/-- Python's `str.strip()`. -/
def pyStrip (s : String) : String :=
  ⟨((s.data.dropWhile isPySpace).reverse.dropWhile isPySpace).reverse⟩

/-- Python's `str.lower()` (ASCII case folding suffices for the header
token comparison). -/
def pyLower (s : String) : String :=
  ⟨s.data.map Char.toLower⟩

/-- Python's `str.startswith("#")`. -/
def startsHash (s : String) : Bool :=
  s.data.head? = some '#'

/-- Lines obtained by iterating a text file in Python: the content split at
newline characters, without a phantom empty final line when the content ends
in a newline. -/
def fileLines (s : String) : List String :=
  let ls := (splitOnChar '\n' s.data).map String.mk
  if ls.getLast? = some "" then ls.dropLast else ls

/-- A contiguous-sublist test on character lists. -/
def containsList (pat : List Char) : List Char → Bool
  | [] => pat.isEmpty
  | x :: xs => pat.isPrefixOf (x :: xs) || containsList pat xs

/-- Python's `pat in s` substring test. -/
def containsSub (s pat : String) : Bool :=
  containsList pat.data s.data

/-- Line 79: heuristic CSV sniff over the first 2048 characters. -/
def looksCsv (sample : String) : Bool :=
  containsSub sample "," || containsSub sample ";" || containsSub sample "PartitionKey"

/-- Rows produced by `csv.reader` on quote-free input (the loader's inputs in
this development contain no quoted fields): a blank line yields an empty row,
any other line splits at commas. -/
def csvRows (content : String) : List (List String) :=
  (fileLines content).map
    (fun l => if l = "" then [] else (splitOnChar ',' l.data).map String.mk)

/-- Lines 81-99: extract candidate keys from the file content, before
deduplication.  In CSV mode the first row is dropped when its first cell
case-insensitively equals "partitionkey"; in both modes blank entries and
entries starting with '#' are skipped. -/
def rawKeys (content : String) : List String :=
  if looksCsv ⟨content.data.take 2048⟩ then
    let rows := csvRows content
    match rows.head? with
    | none => []
    | some r0 =>
      let firstCell := pyStrip (r0.headD "")
      let keep := if pyLower firstCell = "partitionkey" then rows.drop 1 else rows
      keep.filterMap (fun row =>
        match row.head? with
        | none => none
        | some c =>
          let pk := pyStrip c
          if pk ≠ "" ∧ ¬ startsHash pk then some pk else none)
  else
    (fileLines content).filterMap (fun line =>
      let pk := pyStrip line
      if pk ≠ "" ∧ ¬ startsHash pk then some pk else none)

/-- Lines 102-107: the `seen`-set loop that removes exact duplicates while
preserving first-seen order. -/
def dedupeAux (seen : List String) : List String → List String
  | [] => []
  | k :: ks => if k ∈ seen then dedupeAux seen ks else k :: dedupeAux (k :: seen) ks

/-- Lines 59-108: `load_partition_keys`, over the input file's content. -/
def load_partition_keys (content : String) : List String :=
  dedupeAux [] (rawKeys content)

/-- Modelled from the spec's words "returns keys in first-seen order with
exact duplicates removed": keep each key's first occurrence and drop every
later exact duplicate of it. -/
def specFirstSeen : List String → List String
  | [] => []
  | k :: ks => k :: specFirstSeen (ks.filter (fun x => x ≠ k))
termination_by l => l.length
decreasing_by
  simp only [List.length_cons]
  exact Nat.lt_succ_of_le (List.length_filter_le _ _)

/-! ### The partition fetcher `request_one_pk` (lines 136-200)

A continuation header that Python's `resp.headers.get` did not find is
`None`; the code only ever tests headers and parameter values for
truthiness, under which `None` and the empty string behave identically, so
both are modelled as `""`. -/

/-- A single quote character (used by the OData literal escaping). -/
def squoteChar : Char := '\x27'

def squote : String := String.singleton squoteChar

/-- Line 148: `pk.replace("'", "''")` — every single-quote character is
doubled. -/
def odataEscape (pk : String) : String :=
  ⟨(pk.data.map (fun c => if c = squoteChar then [squoteChar, squoteChar] else [c])).flatten⟩

/-- Line 149: the equality filter built for one partition key. -/
def mkFilter (pk : String) : String :=
  "PartitionKey eq " ++ squote ++ odataEscape pk ++ squote

/-- The query parameters of one GET request: the `$filter` value, and the
two continuation parameters (`""` when absent, see above). -/
structure Params where
  filter : String
  npk : String
  nrk : String
deriving DecidableEq

/-- Line 149: the initial parameter dict, carrying only the filter. -/
def baseParams (pk : String) : Params :=
  ⟨mkFilter pk, "", ""⟩

/-- One HTTP response as the loop observes it: status code, the parsed
entity list of the body (`data.get("value", []) or []`), and the two
continuation response headers (`""` when absent). -/
structure HttpResponse where
  status : Nat
  value : List Entity
  npk : String
  nrk : String
deriving DecidableEq

/-- What the network does for one issued request: deliver a response, or
raise a `requests.RequestException` (connection reset, timeout, DNS, ...). -/
inductive NetEvent where
  | resp (r : HttpResponse)
  | netErr
deriving DecidableEq

/-- The cause wrapped by the final `RuntimeError` when retries are
exhausted: the HTTP error raised by `raise_for_status`, or the
network-level exception. -/
inductive FailCause where
  | http (status : Nat)
  | net
deriving DecidableEq

/-- How `request_one_pk` terminates. -/
inductive FetchErr where
  /-- Line 162: the `RuntimeError` raised on a 401/403 response. -/
  | auth (status : Nat)
  /-- Line 196: the `RuntimeError` raised once `tries > max_retries`. -/
  | requestFailed (cause : FailCause)
deriving DecidableEq

inductive FetchOutcome where
  | ok (entities : List Entity)
  | err (e : FetchErr)
  /-- The event script ran out while the loop still awaited a response (a
  model artefact: the real loop would block on the network). -/
  | hung
deriving DecidableEq

/-- The observable result of one fetch: its outcome, the query parameters of
every GET issued (in order), and the duration of every back-off sleep (in
order). -/
structure FetchResult where
  outcome : FetchOutcome
  requests : List Params
  sleeps : List ℚ
deriving DecidableEq

/-- Line 168: the status codes treated as throttling / transient. -/
def transientStatuses : List Nat := [429, 500, 502, 503, 504]

/-- Lines 157-198: the `while True` loop.  State threaded through exactly as
in the source: current parameters `np`, current back-off `b`, retry counter
`t`, accumulated `results`; `reqs` and `sleeps` record the trace.  One event
is consumed per iteration.  `raise_for_status` on a 4xx/5xx raises an
`HTTPError`, which is a `RequestException` and is therefore handled by the
`except` clause of lines 193-198. -/
def requestLoop (params : Params) (max_retries : Nat) :
    List NetEvent → Params → ℚ → Nat → List Entity → List Params → List ℚ →
    FetchResult
  | [], _, _, _, _, reqs, sleeps => ⟨.hung, reqs, sleeps⟩
  | ev :: evs, np, b, t, results, reqs, sleeps =>
    match ev with
    | .netErr =>
      -- lines 193-198: except requests.RequestException
      let t' := t + 1
      if t' > max_retries then ⟨.err (.requestFailed .net), reqs ++ [np], sleeps⟩
      else requestLoop params max_retries evs np (min (b * 2) 60) t' results
        (reqs ++ [np]) (sleeps ++ [b])
    | .resp r =>
      if r.status = 401 ∨ r.status = 403 then
        -- lines 161-165: RuntimeError, not a RequestException, so it escapes
        ⟨.err (.auth r.status), reqs ++ [np], sleeps⟩
      else if r.status ∈ transientStatuses then
        -- lines 168-174
        let t' := t + 1
        if t' > max_retries then
          -- line 171: raise_for_status raises HTTPError, caught at line 193
          let t'' := t' + 1
          if t'' > max_retries then
            ⟨.err (.requestFailed (.http r.status)), reqs ++ [np], sleeps⟩
          else requestLoop params max_retries evs np (min (b * 2) 60) t'' results
            (reqs ++ [np]) (sleeps ++ [b])
        else requestLoop params max_retries evs np (min (b * 2) 60) t' results
          (reqs ++ [np]) (sleeps ++ [b])
      else if 400 ≤ r.status ∧ r.status < 600 then
        -- line 176: raise_for_status raises HTTPError, caught at line 193
        let t' := t + 1
        if t' > max_retries then ⟨.err (.requestFailed (.http r.status)), reqs ++ [np], sleeps⟩
        else requestLoop params max_retries evs np (min (b * 2) 60) t' results
          (reqs ++ [np]) (sleeps ++ [b])
      else
        -- lines 176-191: success page
        let results' := results ++ r.value
        if r.npk ≠ "" ∨ r.nrk ≠ "" then
          requestLoop params max_retries evs ⟨params.filter, r.npk, r.nrk⟩ b t results'
            (reqs ++ [np]) sleeps
        else ⟨.ok results', reqs ++ [np], sleeps⟩

/-- Lines 136-200: `request_one_pk`, over a scripted event list. -/
def request_one_pk (pk : String) (max_retries : Nat) (initial_backoff : ℚ)
    (events : List NetEvent) : FetchResult :=
  requestLoop (baseParams pk) max_retries events (baseParams pk) initial_backoff 0 [] [] []

/-- The back-off update of lines 173 and 198: double, capped at 60. -/
def bstep (x : ℚ) : ℚ := min (x * 2) 60

/-- The sleep durations of `n` consecutive retries starting from back-off
`b`. -/
def sleepSeq (b : ℚ) : Nat → List ℚ
  | 0 => []
  | n + 1 => b :: sleepSeq (bstep b) n

/-- Events retried with the counter/backoff policy: a network-level
exception, or a response with status 429 or any 5xx.  The listed statuses
of line 168 take the explicit throttling branch; every other 5xx reaches
`raise_for_status` at line 176, whose `HTTPError` is a `RequestException`
and is handled by the same `except` clause (lines 193-198) — the two paths
sleep, double the backoff and re-issue identically. -/
def transientEvent : NetEvent → Bool
  | .netErr => true
  | .resp r => r.status = 429 || (500 ≤ r.status && r.status < 600)

/-- The failure cause recorded when this event exhausts the retry budget. -/
def failCause : NetEvent → FailCause
  | .netErr => .net
  | .resp r => .http r.status

/-! ### The CSV writer `write_csv` (lines 203-224)

Modelled as a pure function from the accumulated entity list to the list of
records written (header first).  The source's `colset` is a Python `set`,
used only through membership tests and `sorted`; it is represented here as a
duplicate-free list. -/

/-- Lexicographic code-point comparison of character lists: the order by
which Python compares strings. -/
def lexLe : List Char → List Char → Bool
  | [], _ => true
  | _ :: _, [] => false
  | x :: xs, y :: ys =>
    if x < y then true
    else if y < x then false
    else lexLe xs ys

/-- Python's `<=` on strings. -/
def strLe (a b : String) : Prop :=
  lexLe a.data b.data = true

instance : DecidableRel strLe :=
  fun a b => inferInstanceAs (Decidable (lexLe a.data b.data = true))

/-- Lines 212-214: the union of all field names across the entities. -/
def colset (rows : List Entity) : List String :=
  dedupeAux [] ((rows.map (fun r => r.map Prod.fst)).flatten)

/-- Line 217: the preferred leading columns. -/
def preferredCols : List String := ["PartitionKey", "RowKey", "Timestamp"]

/-- Line 218: preferred columns that occur, in their fixed order, then the
remaining columns sorted lexicographically (Python's `sorted`, modelled by
insertion sort under the string order — the sorted columns are pairwise
distinct, so any comparison sort produces this same list). -/
def columns (rows : List Entity) : List String :=
  (preferredCols.filter (fun c => c ∈ colset rows)) ++
    (((colset rows).filter (fun c => c ∉ preferredCols)).insertionSort strLe)

/-- One cell written by `DictWriter`: the entity's value for the column, or
the default `restval` (the empty string) when the entity lacks the field. -/
def csvCell (e : Entity) (c : String) : String :=
  (e.lookup c).getD ""

/-- One data record written for an entity: a cell per column.  Fields of
the entity outside the column list are ignored (`extrasaction="ignore"`). -/
def csvRecord (cols : List String) (e : Entity) : List String :=
  cols.map (csvCell e)

/-- Lines 203-224: `write_csv` as the list of records written to the output
file, the header row first, then one record per entity in input order. -/
def write_csv (rows : List Entity) : List (List String) :=
  columns rows :: rows.map (csvRecord (columns rows))

/-! ### Configuration checks and `main` (lines 51-56, 242-293)

`main_model` captures `main`'s observable control flow over: the table-url
argument, the input file (`none` when the file does not exist, else its
content), the per-key fetch outcome, and the order in which the
`as_completed` loop sees the futures finish.  Token acquisition is assumed
to succeed (its failure is outside these claims).  The fetch function is
consulted only after every configuration check has passed, so "before any
network activity" is expressed by quantifying the error cases over all
fetch functions. -/

/-- Lines 51-56: `require` — strip the value, `SystemExit` when blank. -/
def require (v what : String) : Except String String :=
  if pyStrip v = "" then .error ("Missing required " ++ what) else .ok (pyStrip v)

/-- How the process terminates. -/
inductive MainOutcome where
  /-- A `SystemExit` with a message: non-zero exit status. -/
  | exitFailure (msg : String)
  /-- Normal completion (exit status zero): the summary's row count and
  failed-key list, and the CSV records written. -/
  | exitOk (rowsExported : Nat) (failures : List String) (csv : List (List String))
deriving DecidableEq

/-- The rows a completed fetch contributes to `all_rows` (line 279):
its entities on success, nothing on failure. -/
def fetchRows (fetch : String → Except FetchErr (List Entity)) (k : String) :
    List Entity :=
  match fetch k with
  | .ok es => es
  | .error _ => []

/-- Whether a key lands in `failures` (line 282). -/
def fetchFailed (fetch : String → Except FetchErr (List Entity)) (k : String) :
    Bool :=
  match fetch k with
  | .ok _ => false
  | .error _ => true

/-- Lines 242-293: `main`.  `order` is the completion order in which
`as_completed` yields the per-key futures. -/
def main_model (table_url : String) (input : Option String)
    (fetch : String → Except FetchErr (List Entity)) (order : List String) :
    MainOutcome :=
  match require table_url "table url" with
  | .error msg => .exitFailure msg
  | .ok _ =>
    match input with
    | none => .exitFailure "Input file not found"
    | some content =>
      let keys := load_partition_keys content
      if keys = [] then .exitFailure "No PartitionKey values found in input file."
      else
        let all_rows := (order.map (fetchRows fetch)).flatten
        let failures := order.filter (fetchFailed fetch)
        .exitOk all_rows.length failures (write_csv all_rows)

/-! ### The dispatcher (lines 261-283)

The `ThreadPoolExecutor` loop is a transition system: `start` launches a
pending key's fetch when fewer than `maxWorkers` are running (the executor's
pool bound), `finish` completes a running fetch and records its result the
way lines 275-283 do, in completion order. -/

structure DispatchState where
  /-- Keys submitted but not yet started, in submission order. -/
  pending : List String
  /-- Keys whose fetch is in flight. -/
  running : List String
  /-- Keys whose future has completed, in completion order. -/
  completed : List String
  /-- Line 258/279: the shared entity accumulator. -/
  all_rows : List Entity
  /-- Line 259/282: the failed-key list. -/
  failures : List String
deriving DecidableEq

/-- The state before any fetch starts (lines 261-273 submit every key). -/
def initDispatch (keys : List String) : DispatchState :=
  ⟨keys, [], [], [], []⟩

/-- One scheduling step of the dispatch loop. -/
inductive DStep (maxWorkers : Nat) (fetch : String → Except FetchErr (List Entity)) :
    DispatchState → DispatchState → Prop where
  /-- The executor starts a submitted fetch; at most `maxWorkers` run. -/
  | start (s : DispatchState) (pk : String) (rest : List String)
      (hp : s.pending = pk :: rest) (hw : s.running.length < maxWorkers) :
      DStep maxWorkers fetch s
        { s with pending := rest, running := s.running ++ [pk] }
  /-- A running fetch completes; lines 275-283 record its result. -/
  | finish (s : DispatchState) (pk : String) (hr : pk ∈ s.running) :
      DStep maxWorkers fetch s
        { pending := s.pending
          running := s.running.erase pk
          completed := s.completed ++ [pk]
          all_rows := s.all_rows ++ fetchRows fetch pk
          failures := s.failures ++ (if fetchFailed fetch pk then [pk] else []) }

/-- States the dispatch loop can reach from the initial submission. -/
def DReach (maxWorkers : Nat) (fetch : String → Except FetchErr (List Entity))
    (keys : List String) (s : DispatchState) : Prop :=
  Relation.ReflTransGen (DStep maxWorkers fetch) (initDispatch keys) s

/-! ## Properties of the key loader -/

theorem mem_dedupeAux {seen l : List String} {k : String} :
    k ∈ dedupeAux seen l ↔ k ∈ l ∧ k ∉ seen := by
  induction l generalizing seen with
  | nil => simp [dedupeAux]
  | cons x xs ih =>
    by_cases hx : x ∈ seen
    · rw [dedupeAux, if_pos hx, ih]
      simp only [List.mem_cons]
      constructor
      · exact fun ⟨h1, h2⟩ => ⟨Or.inr h1, h2⟩
      · rintro ⟨h1 | h1, h2⟩
        · exact absurd (h1 ▸ hx) h2
        · exact ⟨h1, h2⟩
    · rw [dedupeAux, if_neg hx]
      simp only [List.mem_cons, ih, List.mem_cons, not_or]
      constructor
      · rintro (rfl | ⟨h1, h2, h3⟩)
        · exact ⟨Or.inl rfl, hx⟩
        · exact ⟨Or.inr h1, h3⟩
      · rintro ⟨rfl | h1, h2⟩
        · exact Or.inl rfl
        · by_cases hk : k = x
          · exact Or.inl hk
          · exact Or.inr ⟨h1, hk, h2⟩

theorem dedupeAux_sublist (seen l : List String) :
    (dedupeAux seen l).Sublist l := by
  induction l generalizing seen with
  | nil => simp [dedupeAux]
  | cons x xs ih =>
    by_cases hx : x ∈ seen
    · rw [dedupeAux, if_pos hx]
      exact (ih seen).trans (List.sublist_cons_self x xs)
    · rw [dedupeAux, if_neg hx]
      exact (ih (x :: seen)).cons₂ x

theorem dedupeAux_nodup (seen l : List String) :
    (dedupeAux seen l).Nodup := by
  induction l generalizing seen with
  | nil => simp [dedupeAux]
  | cons x xs ih =>
    by_cases hx : x ∈ seen
    · rw [dedupeAux, if_pos hx]; exact ih seen
    · rw [dedupeAux, if_neg hx]
      refine List.nodup_cons.mpr ⟨fun hmem => ?_, ih _⟩
      exact (mem_dedupeAux.mp hmem).2 (List.mem_cons_self x seen)

theorem dedupeAux_eq_specFirstSeen (seen l : List String) :
    dedupeAux seen l = specFirstSeen (l.filter (fun x => decide (x ∉ seen))) := by
  induction l generalizing seen with
  | nil => simp [dedupeAux, specFirstSeen]
  | cons x xs ih =>
    by_cases hx : x ∈ seen
    · rw [dedupeAux, if_pos hx, List.filter_cons_of_neg (by simpa using hx)]
      exact ih seen
    · rw [dedupeAux, if_neg hx, List.filter_cons_of_pos (by simpa using hx),
        specFirstSeen, ih (x :: seen), List.filter_filter]
      congr 1
      congr 1
      apply List.filter_congr
      intro a _
      by_cases hax : a = x <;> by_cases has : a ∈ seen <;>
        simp [hax, has, List.mem_cons]

theorem dedupeAux_of_nodup :
    ∀ {l seen : List String}, l.Nodup → (∀ k ∈ l, k ∉ seen) →
      dedupeAux seen l = l
  | [], _, _, _ => rfl
  | x :: xs, seen, hnd, hdisj => by
    rw [dedupeAux, if_neg (hdisj x (List.mem_cons_self x xs))]
    congr 1
    refine dedupeAux_of_nodup (List.nodup_cons.mp hnd).2 ?_
    intro k hk
    simp only [List.mem_cons, not_or]
    exact ⟨fun he => (List.nodup_cons.mp hnd).1 (he ▸ hk),
      hdisj k (List.mem_cons_of_mem x hk)⟩

/-- C6: `load_partition_keys` returns the parsed keys in first-seen order
with exact (string-equality) duplicates removed — it equals the spec-side
first-seen deduplication of the raw key sequence, is duplicate-free, is a
subsequence of the raw keys (so order is preserved), keeps exactly the raw
keys' members, and deduplication is idempotent.  The loader is a pure
function of the file content, so loading the same file twice is
deterministically the same list. -/
theorem load_partition_keys_first_seen_dedup (content : String) :
    load_partition_keys content = specFirstSeen (rawKeys content) ∧
    (load_partition_keys content).Nodup ∧
    (load_partition_keys content).Sublist (rawKeys content) ∧
    (∀ k, k ∈ load_partition_keys content ↔ k ∈ rawKeys content) ∧
    dedupeAux [] (load_partition_keys content) = load_partition_keys content := by
  refine ⟨?_, dedupeAux_nodup _ _, dedupeAux_sublist _ _, ?_, ?_⟩
  · rw [load_partition_keys, dedupeAux_eq_specFirstSeen]
    congr 1
    simp
  · intro k
    rw [load_partition_keys, mem_dedupeAux]
    simp
  · exact dedupeAux_of_nodup (dedupeAux_nodup _ _) (by simp)

/-- C7: on the input file content `"PartitionKey\nA\nA\nB\n#comment\n"` the
loader returns exactly `["A", "B"]`: the header row is discarded, the
comment line is skipped, and the duplicate `"A"` collapses. -/
theorem load_partition_keys_example :
    load_partition_keys "PartitionKey\nA\nA\nB\n#comment\n" = ["A", "B"] := by
  decide

/-! ## Properties of the fetch loop -/

theorem requestLoop_transient_step (params : Params) (mr : Nat) (ev : NetEvent)
    (hev : transientEvent ev = true) (evs : List NetEvent) (np : Params) (b : ℚ)
    (t : Nat) (res : List Entity) (reqs : List Params) (sleeps : List ℚ)
    (ht : t + 1 ≤ mr) :
    requestLoop params mr (ev :: evs) np b t res reqs sleeps
      = requestLoop params mr evs np (bstep b) (t + 1) res (reqs ++ [np])
          (sleeps ++ [b]) := by
  have hng : ¬ (t + 1 > mr) := by omega
  cases ev with
  | netErr => simp [requestLoop, bstep, hng]
  | resp r =>
    have hs : r.status = 429 ∨ (500 ≤ r.status ∧ r.status < 600) := by
      simpa [transientEvent] using hev
    have h401 : ¬ (r.status = 401 ∨ r.status = 403) := by omega
    by_cases hmem : r.status ∈ transientStatuses
    · simp [requestLoop, h401, hmem, hng, bstep]
    · have h4xx : 400 ≤ r.status ∧ r.status < 600 := by omega
      simp [requestLoop, h401, hmem, h4xx, hng, bstep]

theorem requestLoop_transient_trip (params : Params) (mr : Nat) (ev : NetEvent)
    (hev : transientEvent ev = true) (evs : List NetEvent) (np : Params) (b : ℚ)
    (res : List Entity) (reqs : List Params) (sleeps : List ℚ) :
    requestLoop params mr (ev :: evs) np b mr res reqs sleeps
      = ⟨.err (.requestFailed (failCause ev)), reqs ++ [np], sleeps⟩ := by
  cases ev with
  | netErr => simp [requestLoop, failCause]
  | resp r =>
    have hs : r.status = 429 ∨ (500 ≤ r.status ∧ r.status < 600) := by
      simpa [transientEvent] using hev
    have h401 : ¬ (r.status = 401 ∨ r.status = 403) := by omega
    have hg1 : mr + 1 > mr := by omega
    have hg2 : mr + 1 + 1 > mr := by omega
    by_cases hmem : r.status ∈ transientStatuses
    · simp [requestLoop, h401, hmem, hg1, hg2, failCause]
    · have h4xx : 400 ≤ r.status ∧ r.status < 600 := by omega
      simp [requestLoop, h401, hmem, h4xx, hg1, failCause]

theorem requestLoop_page_step (params : Params) (mr : Nat) (e : List Entity)
    (npk nrk : String) (hcont : npk ≠ "" ∨ nrk ≠ "") (evs : List NetEvent)
    (np : Params) (b : ℚ) (t : Nat) (res : List Entity) (reqs : List Params)
    (sleeps : List ℚ) :
    requestLoop params mr (.resp ⟨200, e, npk, nrk⟩ :: evs) np b t res reqs sleeps
      = requestLoop params mr evs ⟨params.filter, npk, nrk⟩ b t (res ++ e)
          (reqs ++ [np]) sleeps := by
  simp [requestLoop, transientStatuses, hcont]

theorem requestLoop_final_page (params : Params) (mr : Nat) (e : List Entity)
    (np : Params) (b : ℚ) (t : Nat) (res : List Entity) (reqs : List Params)
    (sleeps : List ℚ) :
    requestLoop params mr [.resp ⟨200, e, "", ""⟩] np b t res reqs sleeps
      = ⟨.ok (res ++ e), reqs ++ [np], sleeps⟩ := by
  simp [requestLoop, transientStatuses]

theorem requestLoop_transient_prefix (params : Params) (mr : Nat)
    (ts : List NetEvent) (hall : ∀ ev ∈ ts, transientEvent ev = true) :
    ∀ (evs : List NetEvent) (np : Params) (b : ℚ) (t : Nat) (res : List Entity)
      (reqs : List Params) (sleeps : List ℚ), t + ts.length ≤ mr →
    requestLoop params mr (ts ++ evs) np b t res reqs sleeps
      = requestLoop params mr evs np (bstep^[ts.length] b) (t + ts.length) res
          (reqs ++ List.replicate ts.length np) (sleeps ++ sleepSeq b ts.length) := by
  induction ts with
  | nil => intro evs np b t res reqs sleeps _; simp [sleepSeq]
  | cons ev ts ih =>
    intro evs np b t res reqs sleeps hle
    simp only [List.length_cons] at hle
    rw [List.cons_append,
      requestLoop_transient_step params mr ev (hall ev (List.mem_cons_self _ _))
        _ _ _ _ _ _ _ (by omega),
      ih (fun e he => hall e (List.mem_cons_of_mem _ he)) evs np (bstep b)
        (t + 1) res _ _ (by omega)]
    simp only [List.length_cons, sleepSeq, Function.iterate_succ_apply,
      List.replicate_succ, List.append_assoc, List.singleton_append,
      List.cons_append, List.nil_append]
    congr 1
    omega

/-- C4: a 401 or 403 response makes the fetch fail immediately and
permanently with the authorization error, at any point of the fetch: the
loop returns at once with no further request, retry or sleep (the trace
gains only the request that received the 401/403, the sleep trace is
unchanged, and the remaining scripted events are never consumed); at the
top level the whole fetch performs exactly that one request and zero
sleeps. -/
theorem auth_error_fails_immediately (s : Nat) (hs : s = 401 ∨ s = 403)
    (v : List Entity) (npk nrk : String) (rest : List NetEvent) (pk : String)
    (mr : Nat) (b : ℚ) (params np : Params) (b' : ℚ) (t : Nat)
    (res : List Entity) (reqs : List Params) (sleeps : List ℚ) :
    requestLoop params mr (.resp ⟨s, v, npk, nrk⟩ :: rest) np b' t res reqs sleeps
      = ⟨.err (.auth s), reqs ++ [np], sleeps⟩ ∧
    request_one_pk pk mr b (.resp ⟨s, v, npk, nrk⟩ :: rest)
      = ⟨.err (.auth s), [baseParams pk], []⟩ := by
  constructor
  · rcases hs with rfl | rfl <;> simp [requestLoop]
  · rcases hs with rfl | rfl <;> simp [request_one_pk, requestLoop]

theorem auth_error_fails_immediately_witness :
    request_one_pk "A" 5 1 [.resp ⟨403, [], "", ""⟩]
      = ⟨.err (.auth 403), [baseParams "A"], []⟩ :=
  (auth_error_fails_immediately 403 (Or.inr rfl) [] "" "" [] "A" 5 1
    (baseParams "A") (baseParams "A") 1 0 [] [] []).2

/-- C1: when pages 1 and 2 answer with a continuation marker and page 3
without one, the fetch issues exactly 3 GET requests — each carrying the
original equality filter, pages 2 and 3 additionally carrying the
continuation parameters echoed from the previous response — and returns the
three pages' entity lists concatenated in request order, with no sleeps. -/
theorem pagination_three_pages (pk : String) (mr : Nat) (b : ℚ)
    (e1 e2 e3 : List Entity) (npk1 nrk1 npk2 nrk2 : String)
    (h1 : npk1 ≠ "" ∨ nrk1 ≠ "") (h2 : npk2 ≠ "" ∨ nrk2 ≠ "") :
    request_one_pk pk mr b
      [.resp ⟨200, e1, npk1, nrk1⟩, .resp ⟨200, e2, npk2, nrk2⟩,
       .resp ⟨200, e3, "", ""⟩]
      = ⟨.ok (e1 ++ e2 ++ e3),
         [baseParams pk, ⟨mkFilter pk, npk1, nrk1⟩, ⟨mkFilter pk, npk2, nrk2⟩],
         []⟩ := by
  rw [request_one_pk,
    show [NetEvent.resp ⟨200, e1, npk1, nrk1⟩, .resp ⟨200, e2, npk2, nrk2⟩,
        .resp ⟨200, e3, "", ""⟩]
      = .resp ⟨200, e1, npk1, nrk1⟩ :: .resp ⟨200, e2, npk2, nrk2⟩ ::
        [.resp ⟨200, e3, "", ""⟩] from rfl,
    requestLoop_page_step _ _ _ _ _ h1, requestLoop_page_step _ _ _ _ _ h2,
    requestLoop_final_page]
  simp [baseParams]

theorem pagination_three_pages_witness :
    request_one_pk "A" 5 1
      [.resp ⟨200, [[("a", "1")]], "p", ""⟩, .resp ⟨200, [], "", "r"⟩,
       .resp ⟨200, [[("b", "2")]], "", ""⟩]
      = ⟨.ok [[("a", "1")], [("b", "2")]],
         [baseParams "A", ⟨mkFilter "A", "p", ""⟩, ⟨mkFilter "A", "", "r"⟩],
         []⟩ := by
  have h := pagination_three_pages "A" 5 1 [[("a", "1")]] [] [[("b", "2")]]
    "p" "" "" "r" (Or.inl (by decide)) (Or.inr (by decide))
  simpa using h

/-- C2: a fetch answered 503 on attempts 1 and 2 and 200 on attempt 3, with
`maxRetries ≥ 2`, succeeds with exactly attempt 3's entities after exactly
3 requests; the sleep before attempt 2 lasts `initialBackoff` and the sleep
before attempt 3 lasts `min (2 * initialBackoff) 60`. -/
theorem retry_503_then_success (pk : String) (mr : Nat) (b : ℚ)
    (e : List Entity) (hmr : 2 ≤ mr) :
    request_one_pk pk mr b
      [.resp ⟨503, [], "", ""⟩, .resp ⟨503, [], "", ""⟩, .resp ⟨200, e, "", ""⟩]
      = ⟨.ok e, [baseParams pk, baseParams pk, baseParams pk],
         [b, min (2 * b) 60]⟩ := by
  rw [request_one_pk,
    show [NetEvent.resp ⟨503, [], "", ""⟩, .resp ⟨503, [], "", ""⟩,
        .resp ⟨200, e, "", ""⟩]
      = .resp ⟨503, [], "", ""⟩ :: .resp ⟨503, [], "", ""⟩ ::
        [.resp ⟨200, e, "", ""⟩] from rfl,
    requestLoop_transient_step _ _ _ (by decide) _ _ _ _ _ _ _ (by omega),
    requestLoop_transient_step _ _ _ (by decide) _ _ _ _ _ _ _ (by omega),
    requestLoop_final_page]
  simp [bstep, mul_comm]

theorem retry_503_then_success_witness :
    request_one_pk "A" 2 1
      [.resp ⟨503, [], "", ""⟩, .resp ⟨503, [], "", ""⟩,
       .resp ⟨200, [[("a", "b")]], "", ""⟩]
      = ⟨.ok [[("a", "b")]], [baseParams "A", baseParams "A", baseParams "A"],
         [1, 2]⟩ := by
  have h := retry_503_then_success "A" 2 1 [[("a", "b")]] (le_refl 2)
  norm_num at h
  exact h

/-- C3: a response with status 429 or any 5xx (those on the code's explicit
throttling list and every other 5xx, which reaches the same handling via
`raise_for_status` and the `except` clause), or a network-level exception,
increments the one per-fetch retry counter; when the counter exceeds `maxRetries` the fetch
fails with the underlying error (HTTP error or network exception) with no
further sleep, otherwise the worker sleeps for the current backoff, the
backoff doubles capped at 60, and the same request (same parameters) is
re-issued; the counter and backoff are shared across the whole fetch —
transient events before and after a successful continuation page accumulate
in the same counter, which is not reset by the page. -/
theorem transient_retry_policy (pk : String) (mr : Nat) (b : ℚ)
    (ts1 ts2 : List NetEvent)
    (h1 : ∀ ev ∈ ts1, transientEvent ev = true)
    (h2 : ∀ ev ∈ ts2, transientEvent ev = true) :
    (∀ (last : NetEvent) (evs : List NetEvent), transientEvent last = true →
      ts1.length = mr →
      request_one_pk pk mr b (ts1 ++ last :: evs)
        = ⟨.err (.requestFailed (failCause last)),
           List.replicate (mr + 1) (baseParams pk), sleepSeq b mr⟩) ∧
    (∀ e : List Entity, ts1.length ≤ mr →
      request_one_pk pk mr b (ts1 ++ [.resp ⟨200, e, "", ""⟩])
        = ⟨.ok e, List.replicate (ts1.length + 1) (baseParams pk),
           sleepSeq b ts1.length⟩) ∧
    (∀ (e : List Entity) (npk nrk : String) (last : NetEvent)
        (evs : List NetEvent),
      npk ≠ "" ∨ nrk ≠ "" → transientEvent last = true →
      ts1.length + ts2.length = mr →
      request_one_pk pk mr b (ts1 ++ .resp ⟨200, e, npk, nrk⟩ :: (ts2 ++ last :: evs))
        = ⟨.err (.requestFailed (failCause last)),
           List.replicate (ts1.length + 1) (baseParams pk)
             ++ List.replicate (ts2.length + 1) (⟨mkFilter pk, npk, nrk⟩ : Params),
           sleepSeq b ts1.length ++ sleepSeq (bstep^[ts1.length] b) ts2.length⟩) := by
  refine ⟨?_, ?_, ?_⟩
  · intro last evs hlast hlen
    rw [request_one_pk,
      requestLoop_transient_prefix _ _ _ h1 _ _ _ _ _ _ _ (by omega), hlen,
      show (0 : Nat) + mr = mr from by omega,
      requestLoop_transient_trip _ _ _ hlast]
    simp [List.replicate_succ', List.append_assoc]
  · intro e hlen
    rw [request_one_pk,
      requestLoop_transient_prefix _ _ _ h1 _ _ _ _ _ _ _ (by omega),
      requestLoop_final_page]
    simp [List.replicate_succ', List.append_assoc]
  · intro e npk nrk last evs hcont hlast hlen
    rw [request_one_pk,
      requestLoop_transient_prefix _ _ _ h1 _ _ _ _ _ _ _ (by omega),
      requestLoop_page_step _ _ _ _ _ hcont,
      requestLoop_transient_prefix _ _ _ h2 _ _ _ _ _ _ _ (by omega),
      show (0 : Nat) + ts1.length + ts2.length = mr from by omega,
      requestLoop_transient_trip _ _ _ hlast]
    simp [baseParams, List.replicate_succ', List.append_assoc]

theorem transient_retry_policy_witness :
    request_one_pk "A" 1 1 [.netErr, .resp ⟨501, [], "", ""⟩]
      = ⟨.err (.requestFailed (.http 501)), [baseParams "A", baseParams "A"],
         [1]⟩ := by
  have h := (transient_retry_policy "A" 1 1 [.netErr] [] (by decide)
    (by decide)).1 (.resp ⟨501, [], "", ""⟩) [] (by decide) rfl
  simpa [sleepSeq, failCause] using h

/-! ## Properties of the CSV writer -/

theorem lexLe_total : ∀ a b : List Char, lexLe a b = true ∨ lexLe b a = true
  | [], _ => Or.inl rfl
  | _ :: _, [] => Or.inr rfl
  | x :: xs, y :: ys => by
    rcases lt_trichotomy x y with h | h | h
    · left; simp [lexLe, h]
    · subst h
      rcases lexLe_total xs ys with h' | h'
      · left; simp [lexLe, h']
      · right; simp [lexLe, h']
    · right; simp [lexLe, h]

theorem lexLe_trans : ∀ a b c : List Char,
    lexLe a b = true → lexLe b c = true → lexLe a c = true
  | [], _, _, _, _ => rfl
  | _ :: _, [], _, hab, _ => by simp [lexLe] at hab
  | _ :: _, _ :: _, [], _, hbc => by simp [lexLe] at hbc
  | x :: xs, y :: ys, z :: zs, hab, hbc => by
    simp only [lexLe] at hab hbc ⊢
    by_cases h1 : x < y
    · by_cases h3 : y < z
      · simp [lt_trans h1 h3]
      · by_cases h4 : z < y
        · simp [if_neg h3, if_pos h4] at hbc
        · have hyz : y = z := le_antisymm (not_lt.mp h4) (not_lt.mp h3)
          subst hyz
          simp [h1]
    · by_cases h2 : y < x
      · simp [if_neg h1, if_pos h2] at hab
      · have hxy : x = y := le_antisymm (not_lt.mp h2) (not_lt.mp h1)
        subst hxy
        simp only [if_neg h1, if_neg h2] at hab
        by_cases h3 : x < z
        · simp [h3]
        · by_cases h4 : z < x
          · simp [if_neg h3, if_pos h4] at hbc
          · simp only [if_neg h3, if_neg h4] at hbc ⊢
            exact lexLe_trans xs ys zs hab hbc

instance : IsTotal String strLe :=
  ⟨fun a b => lexLe_total a.data b.data⟩

instance : IsTrans String strLe :=
  ⟨fun a b c => lexLe_trans a.data b.data c.data⟩

theorem mem_colset {rows : List Entity} {c : String} :
    c ∈ colset rows ↔ ∃ e ∈ rows, ∃ v, (c, v) ∈ e := by
  rw [colset, mem_dedupeAux]
  simp only [List.not_mem_nil, not_false_iff, and_true, List.mem_flatten,
    List.mem_map]
  constructor
  · rintro ⟨_, ⟨e, he, rfl⟩, hc⟩
    obtain ⟨p, hp, hk⟩ := List.mem_map.mp hc
    refine ⟨e, he, p.2, ?_⟩
    rw [← hk]
    simpa using hp
  · rintro ⟨e, he, v, hv⟩
    exact ⟨e.map Prod.fst, ⟨e, he, rfl⟩, List.mem_map.mpr ⟨(c, v), hv, rfl⟩⟩

theorem mem_columns {rows : List Entity} {c : String} :
    c ∈ columns rows ↔ c ∈ colset rows := by
  rw [columns]
  simp only [List.mem_append, (List.perm_insertionSort strLe _).mem_iff,
    List.mem_filter, decide_eq_true_eq]
  by_cases hp : c ∈ preferredCols <;> simp [hp]

theorem lookup_eq_none_of_not_mem :
    ∀ {e : Entity} {c : String}, (∀ v, (c, v) ∉ e) → e.lookup c = none
  | [], _, _ => rfl
  | (k, v) :: ps, c, h => by
    have hck : (c == k) = false :=
      beq_eq_false_iff_ne.mpr (fun he => h v (by simp [he]))
    simp only [List.lookup, hck]
    exact lookup_eq_none_of_not_mem (fun w hw => h w (List.mem_cons_of_mem _ hw))

/-- C5: the CSV column set is exactly the union of the entities' field
names (nothing omitted, nothing fabricated); the columns open with the
preferred columns that occur, in the fixed order PartitionKey, RowKey,
Timestamp, followed by the remaining columns in lexicographic order; a cell
for a column the entity lacks is written blank; and on the two-entity
example the records written are exactly the claimed header and rows. -/
theorem write_csv_column_union (rows : List Entity) :
    (∀ c, c ∈ columns rows ↔ ∃ e ∈ rows, ∃ v, (c, v) ∈ e) ∧
    (∃ rest, columns rows
        = preferredCols.filter (fun c => c ∈ columns rows) ++ rest ∧
      (∀ c ∈ rest, c ∉ preferredCols) ∧
      List.Sorted strLe rest ∧
      (∀ c, c ∈ rest ↔ c ∈ columns rows ∧ c ∉ preferredCols)) ∧
    (∀ e ∈ rows, ∀ c, (∀ v, (c, v) ∉ e) → csvCell e c = "") ∧
    write_csv [[("PartitionKey", "A"), ("RowKey", "1"), ("X", "1")],
               [("PartitionKey", "B"), ("RowKey", "2"), ("Y", "2")]]
      = [["PartitionKey", "RowKey", "X", "Y"],
         ["A", "1", "1", ""], ["B", "2", "", "2"]] := by
  refine ⟨fun c => mem_columns.trans mem_colset, ?_, ?_, by decide⟩
  · refine ⟨((colset rows).filter (fun c => c ∉ preferredCols)).insertionSort strLe,
      ?_, ?_, List.sorted_insertionSort strLe _, ?_⟩
    · rw [columns]
      congr 1
      exact (List.filter_congr (fun c hx => by simp [mem_columns, hx])).symm
    · intro c hc
      have := (List.perm_insertionSort strLe _).mem_iff.mp hc
      simpa using (List.mem_filter.mp this).2
    · intro c
      rw [(List.perm_insertionSort strLe _).mem_iff, List.mem_filter, mem_columns]
      simp
  · intro e _ c hc
    rw [csvCell, lookup_eq_none_of_not_mem hc, Option.getD_none]

theorem write_csv_column_union_witness :
    csvCell [("PartitionKey", "A"), ("RowKey", "1"), ("X", "1")] "Y" = "" :=
  (write_csv_column_union
      [[("PartitionKey", "A"), ("RowKey", "1"), ("X", "1")],
       [("PartitionKey", "B"), ("RowKey", "2"), ("Y", "2")]]).2.2.1
    [("PartitionKey", "A"), ("RowKey", "1"), ("X", "1")] (by simp) "Y"
    (fun v => by simp)

/-- C10: on the empty entity list the writer does not fail: it writes a
header row over the empty column set and zero data rows. -/
theorem write_csv_empty :
    write_csv [] = [[]] ∧ columns [] = [] := by decide

/-! ## Exit behaviour of `main` -/

/-- C8: a blank table url, a missing input file, or an input whose key list
is empty each terminate the process immediately with a `SystemExit`
(non-zero status, descriptive message) before any network activity — the
outcome is the same failure for every fetch function and completion order;
in every other case the run completes and exits zero even when individual
fetches fail, the failed keys being reported only through the summary's
failure list. -/
theorem main_exit_behavior (u : String) (input : Option String) :
    (pyStrip u = "" → ∀ fetch order, main_model u input fetch order
        = .exitFailure "Missing required table url") ∧
    (pyStrip u ≠ "" → input = none → ∀ fetch order,
      main_model u input fetch order = .exitFailure "Input file not found") ∧
    (∀ content, pyStrip u ≠ "" → input = some content →
      load_partition_keys content = [] → ∀ fetch order,
      main_model u input fetch order
        = .exitFailure "No PartitionKey values found in input file.") ∧
    (∀ content, pyStrip u ≠ "" → input = some content →
      load_partition_keys content ≠ [] → ∀ fetch order, ∃ rowCount csv,
      main_model u input fetch order
        = .exitOk rowCount (order.filter (fetchFailed fetch)) csv) := by
  refine ⟨?_, ?_, ?_, ?_⟩
  · intro hu fetch order
    simp [main_model, require, hu]
  · intro hu hin fetch order
    subst hin
    simp [main_model, require, hu]
  · intro content hu hin hkeys fetch order
    subst hin
    simp [main_model, require, hu, hkeys]
  · intro content hu hin hkeys fetch order
    subst hin
    refine ⟨((order.map (fetchRows fetch)).flatten).length,
      write_csv ((order.map (fetchRows fetch)).flatten), ?_⟩
    simp only [main_model, require, if_neg hu, if_neg hkeys]

theorem main_exit_behavior_witness :
    main_model "" none (fun _ => Except.ok []) []
      = .exitFailure "Missing required table url" :=
  (main_exit_behavior "" none).1 rfl (fun _ => Except.ok []) []

/-! ## Invariants of the dispatch loop -/

/-- C9: in every state the dispatch loop can reach, at most `maxWorkers`
fetches are in flight; the pending, in-flight and completed keys together
are a permutation of the submitted key list (so, when that list is
duplicate-free, no key's fetch is ever started or recorded twice); and the
entity accumulator and failure list are exactly the completed fetches'
contributions, in completion order — not submission order. -/
theorem dispatcher_invariants (mw : Nat)
    (fetch : String → Except FetchErr (List Entity)) (keys : List String)
    (s : DispatchState) (h : DReach mw fetch keys s) :
    s.running.length ≤ mw ∧
    (s.pending ++ s.running ++ s.completed).Perm keys ∧
    s.all_rows = (s.completed.map (fetchRows fetch)).flatten ∧
    s.failures = s.completed.filter (fetchFailed fetch) ∧
    (keys.Nodup → (s.running ++ s.completed).Nodup) := by
  have main : s.running.length ≤ mw ∧
      (s.pending ++ s.running ++ s.completed).Perm keys ∧
      s.all_rows = (s.completed.map (fetchRows fetch)).flatten ∧
      s.failures = s.completed.filter (fetchFailed fetch) := by
    induction h with
    | refl => simp [initDispatch]
    | tail hreach hstep ih =>
      rename_i s1 s2
      obtain ⟨ih1, ih2, ih3, ih4⟩ := ih
      cases hstep with
      | start pk rest hp hw =>
        refine ⟨by simpa using hw, ?_, by simpa using ih3, by simpa using ih4⟩
        rw [hp] at ih2
        simp only [List.singleton_append, List.cons_append, List.append_assoc,
          List.nil_append] at ih2 ⊢
        rw [← List.append_assoc]
        refine List.Perm.trans List.perm_middle ?_
        simpa [List.append_assoc] using ih2
      | finish pk hr =>
        refine ⟨(List.erase_sublist pk s1.running).length_le.trans ih1, ?_, ?_, ?_⟩
        · refine List.Perm.trans ?_ ih2
          simp only [List.append_assoc]
          refine List.Perm.append_left s1.pending ?_
          refine List.Perm.trans
            (List.Perm.append_left _ (List.perm_append_singleton pk _)) ?_
          refine List.Perm.trans List.perm_middle ?_
          rw [← List.cons_append]
          exact ((List.perm_cons_erase hr).symm).append_right _
        · simp [ih3, List.map_append, List.flatten_append]
        · rw [ih4]
          by_cases hf : fetchFailed fetch pk <;>
            simp [hf, List.filter_append, List.filter]
  refine ⟨main.1, main.2.1, main.2.2.1, main.2.2.2, fun hnd => ?_⟩
  have hbig : (s.pending ++ s.running ++ s.completed).Nodup :=
    main.2.1.symm.nodup hnd
  rw [List.append_assoc] at hbig
  exact (List.sublist_append_right s.pending _).nodup hbig

theorem dispatcher_invariants_witness :
    (initDispatch ["A"]).running.length ≤ 1 ∧
    ((initDispatch ["A"]).pending ++ (initDispatch ["A"]).running ++
        (initDispatch ["A"]).completed).Perm ["A"] ∧
    (initDispatch ["A"]).all_rows
      = (((initDispatch ["A"]).completed).map
          (fetchRows (fun _ => Except.ok []))).flatten ∧
    (initDispatch ["A"]).failures
      = ((initDispatch ["A"]).completed).filter
          (fetchFailed (fun _ => Except.ok [])) ∧
    ((["A"] : List String).Nodup →
      ((initDispatch ["A"]).running ++ (initDispatch ["A"]).completed).Nodup) :=
  dispatcher_invariants 1 (fun _ => Except.ok []) ["A"] (initDispatch ["A"])
    Relation.ReflTransGen.refl

end TableExport
